import Mathlib

/-!
Verification of the Audio Translator & Voiceover Studio client against its
specification.  The TypeScript sources are shallowly embedded:

* `utils/audio` (the WAV container encoder `createWavBlob`, the base64 decoder
  `decodeBase64`, and `fileToBase64`) is not part of the available sources, so
  those utilities are modelled from the spec (sections 3, 4 of spec.md); their
  doc comments say so explicitly.
* `services/geminiService.ts` is embedded with the external network call
  abstracted as an oracle value of type `Except String α` (the outcome of the
  awaited promise) plus a `Bool` tracking whether a network request was issued.
* The React component (`App`, the unnamed source file) is embedded as a record
  `AppModel` of its state hooks together with one state-transition function per
  event handler; an asynchronous service result appears as an explicit `Except`
  parameter, and the sequential effect of the handler on the state is computed
  directly, since the event loop is single threaded and each handler applies
  its `setState` calls in program order.

Bytes are modelled as `Nat` (each entry reduced modulo 256 where the code
truncates), blobs and buffers as `List Nat`, and the object URL created for a
generated WAV blob is identified with the blob bytes it denotes.
-/

namespace AudioStudio

/-- The `{sampleRate, channels, bitsPerSample}` record handed to the WAV
encoder (spec section 3, `AudioFormat`). -/
structure AudioFormat where
  sampleRate : Nat
  channels : Nat
  bitsPerSample : Nat
  deriving Repr, DecidableEq

/-- Little-endian encoding of a 16-bit unsigned value as two bytes
(`DataView.setUint16(..., true)` semantics: the value is truncated to
16 bits). -/
def writeU16LE (v : Nat) : List Nat :=
  [v % 256, v / 256 % 256]

/-- Little-endian encoding of a 32-bit unsigned value as four bytes
(`DataView.setUint32(..., true)` semantics: the value is truncated to
32 bits). -/
def writeU32LE (v : Nat) : List Nat :=
  [v % 256, v / 256 % 256, v / 65536 % 256, v / 16777216 % 256]

/-- Modelled from the spec: `createWavBlob` / `encodeWav` lives in
`utils/audio`, which is not among the available sources.  The definition
follows the output layout table of spec section 4.1 exactly: a 44-byte
RIFF/WAVE/fmt /data header (chunk IDs as literal ASCII bytes, all multi-byte
integers little-endian) followed by the PCM payload verbatim.
`[82,73,70,70]` is ASCII `RIFF`, `[87,65,86,69]` is `WAVE`,
`[102,109,116,32]` is `fmt `, `[100,97,116,97]` is `data`. -/
def createWavBlob (pcmBytes : List Nat) (format : AudioFormat) : List Nat :=
  [82, 73, 70, 70] ++
  writeU32LE (36 + pcmBytes.length) ++
  [87, 65, 86, 69] ++
  [102, 109, 116, 32] ++
  writeU32LE 16 ++
  writeU16LE 1 ++
  writeU16LE format.channels ++
  writeU32LE format.sampleRate ++
  writeU32LE (format.sampleRate * format.channels * (format.bitsPerSample / 8)) ++
  writeU16LE (format.channels * (format.bitsPerSample / 8)) ++
  writeU16LE format.bitsPerSample ++
  [100, 97, 116, 97] ++
  writeU32LE pcmBytes.length ++
  pcmBytes

/-- Read back a little-endian 16-bit unsigned integer at byte offset `off`. -/
def readU16LE (bs : List Nat) (off : Nat) : Nat :=
  match bs.drop off with
  | b0 :: b1 :: _ => b0 + 256 * b1
  | _ => 0

/-- Read back a little-endian 32-bit unsigned integer at byte offset `off`. -/
def readU32LE (bs : List Nat) (off : Nat) : Nat :=
  match bs.drop off with
  | b0 :: b1 :: b2 :: b3 :: _ => b0 + 256 * b1 + 65536 * b2 + 16777216 * b3
  | _ => 0

/-- The header-layout property of spec section 4.1: every field of the
44-byte header sits at its fixed offset with the value of the table,
multi-byte integers little-endian, chunk IDs as ASCII bytes. -/
def wavHeaderSpec (pcmBytes : List Nat) (format : AudioFormat) : Prop :=
  (createWavBlob pcmBytes format).take 4 = [82, 73, 70, 70] ∧
  readU32LE (createWavBlob pcmBytes format) 4 = 36 + pcmBytes.length ∧
  ((createWavBlob pcmBytes format).drop 8).take 4 = [87, 65, 86, 69] ∧
  ((createWavBlob pcmBytes format).drop 12).take 4 = [102, 109, 116, 32] ∧
  readU32LE (createWavBlob pcmBytes format) 16 = 16 ∧
  readU16LE (createWavBlob pcmBytes format) 20 = 1 ∧
  readU16LE (createWavBlob pcmBytes format) 22 = format.channels ∧
  readU32LE (createWavBlob pcmBytes format) 24 = format.sampleRate ∧
  readU32LE (createWavBlob pcmBytes format) 28 =
    format.sampleRate * format.channels * (format.bitsPerSample / 8) ∧
  readU16LE (createWavBlob pcmBytes format) 32 =
    format.channels * (format.bitsPerSample / 8) ∧
  readU16LE (createWavBlob pcmBytes format) 34 = format.bitsPerSample ∧
  ((createWavBlob pcmBytes format).drop 36).take 4 = [100, 97, 116, 97] ∧
  readU32LE (createWavBlob pcmBytes format) 40 = pcmBytes.length

/-- The `AppState` union of the component: one of five string tags. -/
inductive AppPhase
  | initial
  | transcribing
  | transcribed
  | translating
  | error
  deriving Repr, DecidableEq

/-- An uploaded audio file, identified with its name and contents (the base64
digest of its bytes together with its MIME type, which is what `fileToBase64`
extracts from it). -/
structure AudioFile where
  name : String
  base64 : String
  mimeType : String
  deriving Repr, DecidableEq

/-- The `Translation` record of the component.  `audioUrl` holds the WAV blob
bytes the object URL denotes. -/
structure Translation where
  lang : String
  langCode : String
  text : String
  audioUrl : Option (List Nat)
  isGeneratingAudio : Bool
  deriving Repr, DecidableEq

/-- The state hooks of the `App` component. -/
structure AppModel where
  audioFile : Option AudioFile
  originalTranscription : String
  translations : List Translation
  selectedLanguage : String
  activeTab : String
  appState : AppPhase
  error : Option String
  deriving Repr, DecidableEq

/-- One entry of the `LANGUAGES` constant (`constants.ts` is not among the
available sources, so the language list is passed as an explicit parameter
where the component reads the module-level constant). -/
structure Language where
  code : String
  name : String
  deriving Repr, DecidableEq

/-- ASCII apostrophe, kept out of string literals. -/
def apos : String := ⟨[Char.ofNat 39]⟩

/-- The message thrown by `getAiClient` when no API key is configured
(services/geminiService.ts line 11). -/
def apiKeyErrorMsg : String :=
  "API Key not found. Please ensure it is configured in your Vercel deployment" ++
    apos ++ "s environment variables."

/-- The message `handleTranscribe` shows on any transcription failure. -/
def transcribeErrorMsg : String := "Failed to transcribe audio. Please try again."

/-- The message `handleTranslate` shows on any translation failure. -/
def translateErrorMsg : String := "Failed to translate text. Please try again."

/-- The message `handleGenerateVoiceover` shows when voiceover generation for
the row with language name `langName` fails. -/
def voiceoverErrorMsg (langName : String) : String :=
  "Failed to generate voiceover for " ++ langName ++ "."

/-- `getAiClient` (services/geminiService.ts lines 6-16): returns the cached
client if one exists, otherwise reads `process.env.API_KEY` and either throws
the configuration error or constructs a client.  The client itself carries no
data relevant to the embedding, so it is `Unit`. -/
def getAiClient (cachedAi : Option Unit) (apiKeyEnv : Option String) :
    Except String Unit :=
  match cachedAi with
  | some client => Except.ok client
  | none =>
    match apiKeyEnv with
    | none => Except.error apiKeyErrorMsg
    | some _ => Except.ok ()

/-- `transcribeAudio` (services/geminiService.ts lines 19-38): obtains the
client, then performs one network request whose outcome is the oracle
`netResponse`.  The second component records whether the network request was
issued; when `getAiClient` throws, no request is made.  The payload arguments
do not influence control flow and are kept only to mirror the signature. -/
def transcribeAudio (cachedAi : Option Unit) (apiKeyEnv : Option String)
    (_audioBase64 _mimeType : String) (netResponse : Except String String) :
    Except String String × Bool :=
  match getAiClient cachedAi apiKeyEnv with
  | Except.error e => (Except.error e, false)
  | Except.ok _ => (netResponse, true)

/-- Modelled from the spec: `fileToBase64` lives in `utils/audio`, which is
not among the available sources.  Per spec section 4.1 it reads the whole file
and yields its base64 text and detected MIME type; as the embedded `AudioFile`
is identified with that digest, the function just projects it. -/
def fileToBase64 (file : AudioFile) : String × String :=
  (file.base64, file.mimeType)

/-- `handleFileChange` (App, lines 27-37): when a file was chosen, store it
and reset every prior result; when the chooser yields nothing, do nothing. -/
def handleFileChange (s : AppModel) (selected : Option AudioFile) : AppModel :=
  match selected with
  | none => s
  | some file =>
    { s with
      audioFile := some file
      originalTranscription := ""
      translations := []
      activeTab := "en"
      appState := AppPhase.initial
      error := none }

/-- `handleTranscribe` (App, lines 39-54): no-op without a file; otherwise
enter the transcribing state, clear the error, call the service, and either
record the transcription or show the generic failure message in the error
state.  The returned `Bool` is the network-request flag of
`transcribeAudio`. -/
def handleTranscribe (s : AppModel) (cachedAi : Option Unit)
    (apiKeyEnv : Option String) (netResponse : Except String String) :
    AppModel × Bool :=
  match s.audioFile with
  | none => (s, false)
  | some file =>
    let s1 := { s with appState := AppPhase.transcribing, error := none }
    let payload := fileToBase64 file
    match transcribeAudio cachedAi apiKeyEnv payload.1 payload.2 netResponse with
    | (Except.ok transcription, networkCalled) =>
      ({ s1 with
          originalTranscription := transcription
          appState := AppPhase.transcribed
          activeTab := "en" }, networkCalled)
    | (Except.error _, networkCalled) =>
      ({ s1 with
          error := some transcribeErrorMsg
          appState := AppPhase.error }, networkCalled)

/-- `handleTranslate` (App, lines 56-77): no-op when there is no
transcription or the selected language is already translated; otherwise enter
the translating state, call the service, and either append the new translation
row (name looked up in the language list, `Unknown` for a missing or falsy
name) or show the generic failure message in the error state. -/
def handleTranslate (languages : List Language) (s : AppModel)
    (netResponse : Except String String) : AppModel :=
  if s.originalTranscription == "" ||
      s.translations.any (fun t => t.langCode == s.selectedLanguage) then s
  else
    let s1 := { s with appState := AppPhase.translating, error := none }
    match netResponse with
    | Except.ok translatedText =>
      let langName :=
        match languages.find? (fun l => l.code == s.selectedLanguage) with
        | some l => if l.name == "" then "Unknown" else l.name
        | none => "Unknown"
      let newTranslation : Translation :=
        { lang := langName
          langCode := s.selectedLanguage
          text := translatedText
          audioUrl := none
          isGeneratingAudio := false }
      { s1 with
          translations := s1.translations ++ [newTranslation]
          activeTab := s.selectedLanguage
          appState := AppPhase.transcribed }
    | Except.error _ =>
      { s1 with error := some translateErrorMsg, appState := AppPhase.error }

/-- `prev.map((t, i) => i === idx ? f(t) : t)`: apply `f` to the entry at
position `idx`, keep every other entry. -/
def updateRow {α : Type} : List α → Nat → (α → α) → List α
  | [], _, _ => []
  | t :: ts, 0, f => f t :: ts
  | t :: ts, Nat.succ n, f => t :: updateRow ts n f

/-- Value of one character of the standard base64 alphabet (part of the
spec-modelled decoder). -/
def base64Val (c : Char) : Option Nat :=
  if 65 ≤ c.toNat ∧ c.toNat ≤ 90 then some (c.toNat - 65)
  else if 97 ≤ c.toNat ∧ c.toNat ≤ 122 then some (c.toNat - 97 + 26)
  else if 48 ≤ c.toNat ∧ c.toNat ≤ 57 then some (c.toNat - 48 + 52)
  else if c = '+' then some 62
  else if c = '/' then some 63
  else none

/-- Four-character groups of a padded base64 text, decoded to bytes (part of
the spec-modelled decoder): a full group yields three bytes, a group padded
with one or two `=` ends the input with two bytes or one. -/
def decodeBase64Groups : List Char → Except String (List Nat)
  | [] => Except.ok []
  | c0 :: c1 :: c2 :: c3 :: rest =>
    match base64Val c0, base64Val c1 with
    | some v0, some v1 =>
      if c2 = '=' then
        if c3 = '=' ∧ rest = [] then Except.ok [v0 * 4 + v1 / 16]
        else Except.error "Invalid base64 padding"
      else
        match base64Val c2 with
        | some v2 =>
          if c3 = '=' then
            if rest = [] then Except.ok [v0 * 4 + v1 / 16, v1 % 16 * 16 + v2 / 4]
            else Except.error "Invalid base64 padding"
          else
            match base64Val c3 with
            | some v3 =>
              match decodeBase64Groups rest with
              | Except.ok bs =>
                Except.ok ((v0 * 4 + v1 / 16) :: (v1 % 16 * 16 + v2 / 4) ::
                  (v2 % 4 * 64 + v3) :: bs)
              | Except.error e => Except.error e
            | none => Except.error "Invalid base64 character"
        | none => Except.error "Invalid base64 character"
    | _, _ => Except.error "Invalid base64 character"
  | _ => Except.error "Invalid base64 length"

/-- Modelled from the spec: `decodeBase64` lives in `utils/audio`, which is
not among the available sources.  Per spec section 4.1 it is the standard
base64 alphabet decode with padding, no URL-safe variant, failing on an
invalid character or an incorrect padding length. -/
def decodeBase64 (s : String) : Except String (List Nat) :=
  decodeBase64Groups s.data

/-- `handleGenerateVoiceover` (App, lines 79-99): no-op when no row carries
`langCode`; otherwise set that row's in-flight flag, clear the error, call the
speech service, and on success decode the base64 audio, wrap it in a WAV
container at the fixed 24 kHz mono 16-bit format and store it as the row's
audio; on any failure show the per-row failure message and reset only that
row's flag. -/
def handleGenerateVoiceover (s : AppModel) (langCode : String)
    (speechResponse : Except String String) : AppModel :=
  match s.translations.findIdx? (fun t => t.langCode == langCode) with
  | none => s
  | some translationIndex =>
    let s1 := { s with
      translations := updateRow s.translations translationIndex
        (fun t => { t with isGeneratingAudio := true })
      error := none }
    let rowLang := ((s.translations.get? translationIndex).map Translation.lang).getD ""
    match speechResponse with
    | Except.ok audioBase64 =>
      match decodeBase64 audioBase64 with
      | Except.ok pcmData =>
        let wavBlob := createWavBlob pcmData
          { sampleRate := 24000, channels := 1, bitsPerSample := 16 }
        { s1 with
            translations := updateRow s1.translations translationIndex
              (fun t => { t with audioUrl := some wavBlob, isGeneratingAudio := false }) }
      | Except.error _ =>
        { s1 with
            error := some (voiceoverErrorMsg rowLang)
            translations := updateRow s1.translations translationIndex
              (fun t => { t with isGeneratingAudio := false }) }
    | Except.error _ =>
      { s1 with
          error := some (voiceoverErrorMsg rowLang)
          translations := updateRow s1.translations translationIndex
            (fun t => { t with isGeneratingAudio := false }) }

/-- Disabled condition of the transcribe button (App, line 174):
`!audioFile || appState === transcribing`. -/
def transcribeButtonDisabled (audioFile : Option AudioFile) (appState : AppPhase) : Bool :=
  audioFile.isNone || appState == AppPhase.transcribing

/-- Disabled condition of the translate button (App, line 208):
`isLoading || existingLanguages.includes(selectedLanguage)`. -/
def translateButtonDisabled (isLoading : Bool) (existingLanguages : List String)
    (selectedLanguage : String) : Bool :=
  isLoading || existingLanguages.contains selectedLanguage

/-- Disabled condition of a row's generate-voiceover button (App,
line 295). -/
def generateVoiceoverButtonDisabled (isGeneratingAudio : Bool) : Bool :=
  isGeneratingAudio

/-- The translate-button disabled value as `App` wires it (lines 128-129):
`isLoading` is `appState === translating` and `existingLanguages` the list of
translated language codes. -/
def rendersTranslateDisabled (s : AppModel) : Bool :=
  translateButtonDisabled (s.appState == AppPhase.translating)
    (s.translations.map Translation.langCode) s.selectedLanguage

/-- A click on the transcribe button: an HTML button with `disabled` set
fires no click handler, so the handler only runs when the control is
enabled. -/
def clickTranscribe (s : AppModel) (cachedAi : Option Unit)
    (apiKeyEnv : Option String) (netResponse : Except String String) :
    Option (AppModel × Bool) :=
  if transcribeButtonDisabled s.audioFile s.appState then none
  else some (handleTranscribe s cachedAi apiKeyEnv netResponse)

/-- A click on the translate button, which `App` renders only in the
transcribed or translating state with a non-empty transcription
(line 121). -/
def clickTranslate (languages : List Language) (s : AppModel)
    (netResponse : Except String String) : Option AppModel :=
  if (s.appState == AppPhase.transcribed || s.appState == AppPhase.translating) &&
      !(s.originalTranscription == "") then
    if rendersTranslateDisabled s then none
    else some (handleTranslate languages s netResponse)
  else none

/-- A click on a row's generate-voiceover button, which is rendered only in
the states of line 121, for a row present in the list, while the row has no
audio yet (line 292). -/
def clickGenerateVoiceover (s : AppModel) (langCode : String)
    (speechResponse : Except String String) : Option AppModel :=
  if (s.appState == AppPhase.transcribed || s.appState == AppPhase.translating) &&
      !(s.originalTranscription == "") then
    match s.translations.find? (fun t => t.langCode == langCode) with
    | none => none
    | some t =>
      if t.audioUrl.isSome then none
      else if generateVoiceoverButtonDisabled t.isGeneratingAudio then none
      else some (handleGenerateVoiceover s langCode speechResponse)
  else none

/-- Whitespace per the JavaScript regular-expression class `\s`: tab, line
feed, vertical tab, form feed, carriage return, and the Unicode space
characters (NBSP, Ogham space, the U+2000 block, line and paragraph
separators, narrow NBSP, mathematical space, ideographic space, BOM). -/
def isJsWhitespace (c : Char) : Bool :=
  c.toNat = 9 || c.toNat = 10 || c.toNat = 11 || c.toNat = 12 || c.toNat = 13 ||
  c.toNat = 32 || c.toNat = 160 || c.toNat = 5760 ||
  (8192 ≤ c.toNat && c.toNat ≤ 8202) ||
  c.toNat = 8232 || c.toNat = 8233 || c.toNat = 8239 || c.toNat = 8287 ||
  c.toNat = 12288 || c.toNat = 65279

/-- ASCII underscore, the replacement character of the download name. -/
def underscoreChar : Char := Char.ofNat 95

/-- Scanner for the global replace: emits one underscore at the first
character of each whitespace run (the flag records whether the previous
character was whitespace) and keeps every other character. -/
def replaceWsRunsAux : Bool → List Char → List Char
  | _, [] => []
  | prevWs, c :: cs =>
    if isJsWhitespace c then
      if prevWs then replaceWsRunsAux true cs
      else underscoreChar :: replaceWsRunsAux true cs
    else c :: replaceWsRunsAux false cs

/-- Embedding of the string method call `lang.replace(/\s+/g, '_')` used for
the download name (App, line 247). -/
def replaceWhitespaceRuns (cs : List Char) : List Char :=
  replaceWsRunsAux false cs

/-- The download attribute of a row's link (App, line 247): the row's
language name with the whitespace replace applied, then the literal suffix. -/
def downloadFileName (t : Translation) : String :=
  ⟨replaceWhitespaceRuns t.lang.data⟩ ++ "_voiceover.wav"

/-- ASCII space, for concrete whitespace inputs. -/
def spaceChar : Char := Char.ofNat 32

/-- A concrete uploaded file. -/
def demoFile : AudioFile :=
  { name := "recording.mp3", base64 := "QUJD", mimeType := "audio/mpeg" }

/-- A concrete Spanish translation row. -/
def demoRowEs : Translation :=
  { lang := "Spanish", langCode := "es", text := "Hola mundo",
    audioUrl := none, isGeneratingAudio := false }

/-- A concrete French translation row. -/
def demoRowFr : Translation :=
  { lang := "French", langCode := "fr", text := "Bonjour le monde",
    audioUrl := none, isGeneratingAudio := false }

/-- The French row while its voiceover generation is in flight. -/
def demoRowFrBusy : Translation :=
  { demoRowFr with isGeneratingAudio := true }

/-- A concrete row whose language name contains whitespace. -/
def demoRowPt : Translation :=
  { lang := "Brazilian Portuguese", langCode := "pt", text := "Ola",
    audioUrl := none, isGeneratingAudio := false }

/-- A concrete state directly after choosing a file. -/
def demoSelected : AppModel :=
  { audioFile := some demoFile
    originalTranscription := ""
    translations := []
    selectedLanguage := "es"
    activeTab := "en"
    appState := AppPhase.initial
    error := none }

/-- A concrete transcribed state with one Spanish translation and French
selected. -/
def demoTranscribed : AppModel :=
  { audioFile := some demoFile
    originalTranscription := "Hello world"
    translations := [demoRowEs]
    selectedLanguage := "fr"
    activeTab := "es"
    appState := AppPhase.transcribed
    error := none }

/-- A concrete state with a French voiceover generation in flight. -/
def demoGenerating : AppModel :=
  { demoTranscribed with translations := [demoRowEs, demoRowFrBusy], activeTab := "fr" }

/-- `demoTranscribed` with the already-translated language selected. -/
def demoSelectedEs : AppModel :=
  { demoTranscribed with selectedLanguage := "es" }

/-- A concrete state with a transcription request in flight. -/
def demoBusyTranscribing : AppModel :=
  { demoSelected with appState := AppPhase.transcribing }

/-- A concrete state with a translation request in flight. -/
def demoBusyTranslating : AppModel :=
  { demoTranscribed with appState := AppPhase.translating }

end AudioStudio

namespace AudioStudio

theorem updateRow_map {α β : Type} (g : α → β) (f : α → α)
    (hpres : ∀ t, g (f t) = g t) (ts : List α) :
    ∀ i, (updateRow ts i f).map g = ts.map g := by
  induction ts with
  | nil => intro i; rfl
  | cons t ts ih =>
    intro i
    cases i with
    | zero => simp [updateRow, hpres]
    | succ n => simp [updateRow, ih n]

theorem updateRow_updateRow {α : Type} (f g : α → α) (ts : List α) :
    ∀ i, updateRow (updateRow ts i f) i g = updateRow ts i (fun t => g (f t)) := by
  induction ts with
  | nil => intro i; rfl
  | cons t ts ih =>
    intro i
    cases i with
    | zero => simp [updateRow]
    | succ n => simp [updateRow, ih n]

theorem updateRow_eq_take_cons_drop {α : Type} (f : α → α) (ts : List α) :
    ∀ i t, ts[i]? = some t →
      updateRow ts i f = ts.take i ++ f t :: ts.drop (i + 1) := by
  induction ts with
  | nil => intro i t h; simp at h
  | cons u ts ih =>
    intro i t h
    cases i with
    | zero =>
      simp at h
      subst h
      simp [updateRow]
    | succ n =>
      simp at h
      simp [updateRow, ih n t h]

theorem handleTranscribe_translations (s : AppModel) (cachedAi : Option Unit)
    (apiKeyEnv : Option String) (netResponse : Except String String) :
    (handleTranscribe s cachedAi apiKeyEnv netResponse).1.translations =
      s.translations := by
  unfold handleTranscribe
  dsimp only
  split
  · rfl
  · split <;> rfl

theorem handleTranslate_error_preserves (languages : List Language) (s : AppModel)
    (e : String) :
    (handleTranslate languages s (Except.error e)).originalTranscription =
      s.originalTranscription ∧
    (handleTranslate languages s (Except.error e)).translations = s.translations := by
  unfold handleTranslate
  dsimp only
  split
  · exact ⟨rfl, rfl⟩
  · exact ⟨rfl, rfl⟩

theorem handleGenerateVoiceover_error_fields (s : AppModel) (langCode e : String) :
    (handleGenerateVoiceover s langCode (Except.error e)).originalTranscription =
      s.originalTranscription ∧
    (handleGenerateVoiceover s langCode (Except.error e)).translations.map
        (fun t => (t.lang, t.langCode, t.text, t.audioUrl)) =
      s.translations.map (fun t => (t.lang, t.langCode, t.text, t.audioUrl)) := by
  unfold handleGenerateVoiceover
  dsimp only
  split
  · exact ⟨rfl, rfl⟩
  · refine ⟨rfl, ?_⟩
    rw [updateRow_updateRow]
    dsimp only
    exact updateRow_map (fun t => (t.lang, t.langCode, t.text, t.audioUrl))
      (fun t => { t with isGeneratingAudio := false }) (fun t => rfl) s.translations _

theorem replaceWsRunsAux_true_dropWhile (cs : List Char) :
    replaceWsRunsAux true cs = replaceWhitespaceRuns (cs.dropWhile isJsWhitespace) := by
  induction cs with
  | nil => rfl
  | cons c cs ih =>
    cases hw : isJsWhitespace c with
    | true => simp [replaceWsRunsAux, replaceWhitespaceRuns, List.dropWhile_cons, hw, ih]
    | false => simp [replaceWsRunsAux, replaceWhitespaceRuns, List.dropWhile_cons, hw]

theorem updateRow_nodup_langCode (ts : List Translation) (i : Nat)
    (f : Translation → Translation)
    (hpres : ∀ t, (f t).langCode = t.langCode)
    (h : (ts.map Translation.langCode).Nodup) :
    ((updateRow ts i f).map Translation.langCode).Nodup := by
  rw [updateRow_map Translation.langCode f hpres]
  exact h

/-- Claim C1: the encoder output is the 44-byte header followed by the payload
verbatim: total length `44 + pcmBytes.length`, and dropping the header
recovers `pcmBytes` unchanged.  The function is a total pure Lean function of
exactly these inputs, so purity, totality and determinism hold by
construction, with no side condition even for `pcmBytes = []`. -/
theorem createWavBlob_length_payload (pcmBytes : List Nat) (format : AudioFormat) :
    (createWavBlob pcmBytes format).length = 44 + pcmBytes.length ∧
    (createWavBlob pcmBytes format).drop 44 = pcmBytes := by
  constructor
  · simp [createWavBlob, writeU32LE, writeU16LE]
    omega
  · rfl

set_option maxHeartbeats 8000000 in
/-- Claim C2: every header field sits at its documented offset with its
documented little-endian value, provided each value fits the width of its
field (the spec's precondition: sampleRate and byteRate in 32-bit unsigned,
channels and bitsPerSample in 16-bit unsigned, and the data and RIFF chunk
sizes in 32-bit unsigned).  The definitional unfolding of the 44-byte header
is heartbeat heavy, hence the raised limit. -/
theorem createWavBlob_header_fields (pcmBytes : List Nat) (format : AudioFormat)
    (hsr : format.sampleRate < 4294967296)
    (hch : format.channels < 65536)
    (hbps : format.bitsPerSample < 65536)
    (hbr : format.sampleRate * format.channels * (format.bitsPerSample / 8) < 4294967296)
    (hba : format.channels * (format.bitsPerSample / 8) < 65536)
    (hlen : 36 + pcmBytes.length < 4294967296) :
    wavHeaderSpec pcmBytes format := by
  obtain ⟨sr, ch, bps⟩ := format
  simp only [AudioFormat.sampleRate, AudioFormat.channels, AudioFormat.bitsPerSample]
    at hsr hch hbps hbr hba
  unfold wavHeaderSpec
  refine ⟨rfl, ?_, rfl, rfl, rfl, rfl, ?_, ?_, ?_, ?_, ?_, rfl, ?_⟩
  · show (36 + pcmBytes.length) % 256 + 256 * ((36 + pcmBytes.length) / 256 % 256) +
      65536 * ((36 + pcmBytes.length) / 65536 % 256) +
      16777216 * ((36 + pcmBytes.length) / 16777216 % 256) = 36 + pcmBytes.length
    omega
  · show ch % 256 + 256 * (ch / 256 % 256) = ch
    omega
  · show sr % 256 + 256 * (sr / 256 % 256) + 65536 * (sr / 65536 % 256) +
      16777216 * (sr / 16777216 % 256) = sr
    omega
  · show sr * ch * (bps / 8) % 256 + 256 * (sr * ch * (bps / 8) / 256 % 256) +
      65536 * (sr * ch * (bps / 8) / 65536 % 256) +
      16777216 * (sr * ch * (bps / 8) / 16777216 % 256) = sr * ch * (bps / 8)
    omega
  · show ch * (bps / 8) % 256 + 256 * (ch * (bps / 8) / 256 % 256) = ch * (bps / 8)
    omega
  · show bps % 256 + 256 * (bps / 256 % 256) = bps
    omega
  · show pcmBytes.length % 256 + 256 * (pcmBytes.length / 256 % 256) +
      65536 * (pcmBytes.length / 65536 % 256) +
      16777216 * (pcmBytes.length / 16777216 % 256) = pcmBytes.length
    omega

/-- Witness for C2: the concrete scenario of spec section 8,
`encodeWav([0x00,0x01,0x02,0x03], {sampleRate 24000, channels 1,
bitsPerSample 16})`. -/
theorem createWavBlob_header_fields_witness :
    wavHeaderSpec [0, 1, 2, 3] ⟨24000, 1, 16⟩ :=
  createWavBlob_header_fields [0, 1, 2, 3] ⟨24000, 1, 16⟩
    (by decide) (by decide) (by decide) (by decide) (by decide) (by decide)

/-- Claim C3, counterexample: with a file selected and no API key, the error
shown to the user is the generic transcription-failure message, which differs
from the missing-credential message thrown by `getAiClient` (the handler
catches the thrown error and replaces it); the network-request flag stays
false. -/
theorem transcribe_no_key_message_counterexample :
    (handleTranscribe demoSelected none none (Except.ok "Hello world")).1.error =
      some transcribeErrorMsg ∧
    transcribeErrorMsg ≠ apiKeyErrorMsg ∧
    (handleTranscribe demoSelected none none (Except.ok "Hello world")).2 = false :=
  ⟨rfl, by decide, rfl⟩

/-- Claim C3 as amended: with no cached client and no API key in the process
environment, triggering transcription with a file selected surfaces the
generic transcription-failure message, moves the UI to the error state, and
never issues a network request, whatever the network oracle would have
answered. -/
theorem transcribe_no_key_generic_error (s : AppModel) (file : AudioFile)
    (netResponse : Except String String) (hfile : s.audioFile = some file) :
    (handleTranscribe s none none netResponse).1.error = some transcribeErrorMsg ∧
    (handleTranscribe s none none netResponse).1.appState = AppPhase.error ∧
    (handleTranscribe s none none netResponse).2 = false := by
  unfold handleTranscribe
  rw [hfile]
  exact ⟨rfl, rfl, rfl⟩

/-- Witness for the amended C3. -/
theorem transcribe_no_key_generic_error_witness :
    (handleTranscribe demoSelected none none (Except.ok "T")).1.appState =
      AppPhase.error ∧
    (handleTranscribe demoSelected none none (Except.ok "T")).2 = false :=
  ⟨(transcribe_no_key_generic_error demoSelected demoFile (Except.ok "T") rfl).2.1,
   (transcribe_no_key_generic_error demoSelected demoFile (Except.ok "T") rfl).2.2⟩

/-- Claim C4: a failing transcription call leaves the transcription and the
translations list unchanged and, when a file is selected (so the handler
actually ran), ends in the error state; a failing translation call likewise
preserves both and, when its guard passed, ends in the error state; a failing
speech-generation call preserves the transcription and every row's lang,
langCode, text and audio fields (only the in-flight flags may change). -/
theorem failure_retains_results :
    (∀ (s : AppModel) (cachedAi : Option Unit) (apiKeyEnv : Option String) (e : String),
      (handleTranscribe s cachedAi apiKeyEnv (Except.error e)).1.originalTranscription =
        s.originalTranscription ∧
      (handleTranscribe s cachedAi apiKeyEnv (Except.error e)).1.translations =
        s.translations ∧
      (∀ file, s.audioFile = some file →
        (handleTranscribe s cachedAi apiKeyEnv (Except.error e)).1.appState =
          AppPhase.error)) ∧
    (∀ (languages : List Language) (s : AppModel) (e : String),
      (handleTranslate languages s (Except.error e)).originalTranscription =
        s.originalTranscription ∧
      (handleTranslate languages s (Except.error e)).translations = s.translations ∧
      ((s.originalTranscription == "" ||
          s.translations.any (fun t => t.langCode == s.selectedLanguage)) = false →
        (handleTranslate languages s (Except.error e)).appState = AppPhase.error)) ∧
    (∀ (s : AppModel) (langCode e : String),
      (handleGenerateVoiceover s langCode (Except.error e)).originalTranscription =
        s.originalTranscription ∧
      (handleGenerateVoiceover s langCode (Except.error e)).translations.map
          (fun t => (t.lang, t.langCode, t.text, t.audioUrl)) =
        s.translations.map (fun t => (t.lang, t.langCode, t.text, t.audioUrl))) := by
  refine ⟨?_, ?_, ?_⟩
  · intro s cachedAi apiKeyEnv e
    refine ⟨?_, handleTranscribe_translations s cachedAi apiKeyEnv (Except.error e), ?_⟩
    · unfold handleTranscribe
      dsimp only
      split
      · rfl
      · split
        · next heq =>
          exfalso
          unfold transcribeAudio at heq
          cases hc : getAiClient cachedAi apiKeyEnv <;> simp [hc] at heq
        · rfl
    · intro file hfile
      unfold handleTranscribe
      dsimp only
      rw [hfile]
      dsimp only
      unfold transcribeAudio
      cases hc : getAiClient cachedAi apiKeyEnv <;> simp [hc]
  · intro languages s e
    refine ⟨(handleTranslate_error_preserves languages s e).1,
      (handleTranslate_error_preserves languages s e).2, ?_⟩
    intro hguard
    unfold handleTranslate
    dsimp only
    rw [hguard]
    rfl
  · intro s langCode e
    exact handleGenerateVoiceover_error_fields s langCode e

/-- Witness for C4 at a concrete transcribed state. -/
theorem failure_retains_results_witness :
    (handleTranscribe demoTranscribed (some ()) (some "key")
        (Except.error "boom")).1.originalTranscription =
      demoTranscribed.originalTranscription ∧
    (handleTranslate [] demoTranscribed (Except.error "boom")).translations =
      demoTranscribed.translations ∧
    (handleTranslate [] demoTranscribed (Except.error "boom")).appState =
      AppPhase.error ∧
    (handleGenerateVoiceover demoTranscribed "es" (Except.error "boom")).translations.map
        (fun t => (t.lang, t.langCode, t.text, t.audioUrl)) =
      demoTranscribed.translations.map (fun t => (t.lang, t.langCode, t.text, t.audioUrl)) :=
  ⟨(failure_retains_results.1 demoTranscribed (some ()) (some "key") "boom").1,
   (failure_retains_results.2.1 [] demoTranscribed "boom").2.1,
   (failure_retains_results.2.1 [] demoTranscribed "boom").2.2 (by decide),
   (failure_retains_results.2.2 demoTranscribed "es" "boom").2⟩

/-- Claim C5: when the voiceover generation for the row at position `i` fails,
the resulting state keeps the appState and changes the translations list only
at position `i`, where exactly the in-flight flag is reset: the rows before
`i` and after `i` are returned untouched. -/
theorem voiceover_failure_scoped (s : AppModel) (langCode e : String) (i : Nat)
    (t : Translation)
    (hidx : s.translations.findIdx? (fun r => r.langCode == langCode) = some i)
    (hget : s.translations[i]? = some t) :
    (handleGenerateVoiceover s langCode (Except.error e)).appState = s.appState ∧
    (handleGenerateVoiceover s langCode (Except.error e)).translations =
      s.translations.take i ++
        { t with isGeneratingAudio := false } :: s.translations.drop (i + 1) := by
  unfold handleGenerateVoiceover
  rw [hidx]
  dsimp only
  rw [updateRow_updateRow]
  exact ⟨rfl, updateRow_eq_take_cons_drop _ s.translations i t hget⟩

/-- Witness for C5: the French row's generation fails, the Spanish row is
untouched. -/
theorem voiceover_failure_scoped_witness :
    (handleGenerateVoiceover demoGenerating "fr" (Except.error "boom")).appState =
      demoGenerating.appState ∧
    (handleGenerateVoiceover demoGenerating "fr" (Except.error "boom")).translations =
      demoGenerating.translations.take 1 ++
        { demoRowFrBusy with isGeneratingAudio := false } ::
          demoGenerating.translations.drop 2 :=
  voiceover_failure_scoped demoGenerating "fr" "boom" 1 demoRowFrBusy
    (by decide) (by decide)

/-- Claim C6: the download name is the row's language name with the
whitespace replace applied, then the literal suffix, and the replace collapses
whitespace maximally: the empty name stays empty, a non-whitespace character
is kept, and a whitespace character together with the whole whitespace run
following it becomes a single underscore. -/
theorem download_file_name_collapses_ws (t : Translation) :
    downloadFileName t = ⟨replaceWhitespaceRuns t.lang.data⟩ ++ "_voiceover.wav" ∧
    replaceWhitespaceRuns [] = [] ∧
    (∀ c cs, isJsWhitespace c = false →
      replaceWhitespaceRuns (c :: cs) = c :: replaceWhitespaceRuns cs) ∧
    (∀ c cs, isJsWhitespace c = true →
      replaceWhitespaceRuns (c :: cs) =
        underscoreChar :: replaceWhitespaceRuns (cs.dropWhile isJsWhitespace)) := by
  refine ⟨rfl, rfl, ?_, ?_⟩
  · intro c cs hw
    simp [replaceWhitespaceRuns, replaceWsRunsAux, hw]
  · intro c cs hw
    simp [replaceWhitespaceRuns, replaceWsRunsAux, hw]
    exact replaceWsRunsAux_true_dropWhile cs

/-- Witness for C6: a language name containing whitespace, and a concrete
whitespace run of length three collapsing to one underscore. -/
theorem download_file_name_collapses_ws_witness :
    downloadFileName demoRowPt =
      ⟨replaceWhitespaceRuns demoRowPt.lang.data⟩ ++ "_voiceover.wav" ∧
    replaceWhitespaceRuns (spaceChar :: spaceChar :: [spaceChar]) =
      underscoreChar ::
        replaceWhitespaceRuns ((spaceChar :: [spaceChar]).dropWhile isJsWhitespace) :=
  ⟨(download_file_name_collapses_ws demoRowPt).1,
   (download_file_name_collapses_ws demoRowPt).2.2.2 spaceChar
     (spaceChar :: [spaceChar]) (by decide)⟩

/-- Claim C7: when the speech call succeeds and its base64 payload decodes to
`pcmData`, the handler stores on the target row exactly the WAV container of
`pcmData` at the fixed format sampleRate 24000, channels 1, bitsPerSample 16,
clears that row's flag, and leaves every other row untouched, for any text and
language. -/
theorem voiceover_success_fixed_format (s : AppModel) (langCode b64 : String)
    (i : Nat) (t : Translation) (pcmData : List Nat)
    (hidx : s.translations.findIdx? (fun r => r.langCode == langCode) = some i)
    (hget : s.translations[i]? = some t)
    (hdec : decodeBase64 b64 = Except.ok pcmData) :
    (handleGenerateVoiceover s langCode (Except.ok b64)).translations =
      s.translations.take i ++
        { t with
            audioUrl := some (createWavBlob pcmData
              { sampleRate := 24000, channels := 1, bitsPerSample := 16 })
            isGeneratingAudio := false } :: s.translations.drop (i + 1) := by
  unfold handleGenerateVoiceover
  rw [hidx]
  dsimp only
  rw [hdec]
  dsimp only
  rw [updateRow_updateRow]
  exact updateRow_eq_take_cons_drop _ s.translations i t hget

/-- Witness for C7, on the spec section 8 base64 vector `AAEC` = `[0,1,2]`. -/
theorem voiceover_success_fixed_format_witness :
    (handleGenerateVoiceover demoGenerating "fr" (Except.ok "AAEC")).translations =
      demoGenerating.translations.take 1 ++
        { demoRowFrBusy with
            audioUrl := some (createWavBlob [0, 1, 2]
              { sampleRate := 24000, channels := 1, bitsPerSample := 16 })
            isGeneratingAudio := false } :: demoGenerating.translations.drop 2 :=
  voiceover_success_fixed_format demoGenerating "fr" "AAEC" 1 demoRowFrBusy [0, 1, 2]
    (by decide) (by decide) rfl

/-- Claim C8: while a request of an action type is in flight its triggering
control is disabled and a click on it runs no handler: in the transcribing
state the transcribe button is disabled and a click is a no-op, in the
translating state the translate button as wired by App is disabled and a
click is a no-op, and a row whose in-flight flag is set has its
generate-voiceover button disabled and a click on it is a no-op, so no second
concurrent request of the same action type can be issued. -/
theorem inflight_controls_disabled (s : AppModel) (languages : List Language)
    (langCode : String) (cachedAi : Option Unit) (apiKeyEnv : Option String)
    (netResponse speechResponse : Except String String) :
    (s.appState = AppPhase.transcribing →
      transcribeButtonDisabled s.audioFile s.appState = true ∧
      clickTranscribe s cachedAi apiKeyEnv netResponse = none) ∧
    (s.appState = AppPhase.translating →
      rendersTranslateDisabled s = true ∧
      clickTranslate languages s netResponse = none) ∧
    (∀ t, s.translations.find? (fun r => r.langCode == langCode) = some t →
      t.isGeneratingAudio = true →
      generateVoiceoverButtonDisabled t.isGeneratingAudio = true ∧
      clickGenerateVoiceover s langCode speechResponse = none) := by
  refine ⟨?_, ?_, ?_⟩
  · intro h
    have hd : transcribeButtonDisabled s.audioFile s.appState = true := by
      simp [transcribeButtonDisabled, h]
    exact ⟨hd, by simp [clickTranscribe, hd]⟩
  · intro h
    have hd : rendersTranslateDisabled s = true := by
      simp [rendersTranslateDisabled, translateButtonDisabled, h]
    refine ⟨hd, ?_⟩
    unfold clickTranslate
    rw [hd]
    simp
  · intro t hfind hgen
    refine ⟨by simp [generateVoiceoverButtonDisabled, hgen], ?_⟩
    unfold clickGenerateVoiceover
    split
    · rw [hfind]
      dsimp only
      split
      · rfl
      · simp [generateVoiceoverButtonDisabled, hgen]
    · rfl

/-- Witness for C8: one concrete in-flight state per action type. -/
theorem inflight_controls_disabled_witness :
    clickTranscribe demoBusyTranscribing none none (Except.ok "T") = none ∧
    clickTranslate [] demoBusyTranslating (Except.ok "T") = none ∧
    clickGenerateVoiceover demoGenerating "fr" (Except.ok "AAEC") = none :=
  ⟨((inflight_controls_disabled demoBusyTranscribing [] "fr" none none
      (Except.ok "T") (Except.ok "AAEC")).1 rfl).2,
   ((inflight_controls_disabled demoBusyTranslating [] "fr" none none
      (Except.ok "T") (Except.ok "AAEC")).2.1 rfl).2,
   ((inflight_controls_disabled demoGenerating [] "fr" none none
      (Except.ok "T") (Except.ok "AAEC")).2.2 demoRowFrBusy (by decide) rfl).2⟩

/-- Claim C9: if the translated language codes are pairwise distinct, they
remain so after each of the four event handlers: choosing a file resets the
list, transcription never touches it, translation appends only a language not
yet present (and is a no-op when the selected language already has a
translation), and voiceover generation only rewrites fields of existing rows,
keeping every langCode. -/
theorem langCode_nodup_invariant (languages : List Language) (s : AppModel)
    (selected : Option AudioFile) (cachedAi : Option Unit) (apiKeyEnv : Option String)
    (netResponse speechResponse : Except String String) (langCode : String)
    (h : (s.translations.map Translation.langCode).Nodup) :
    ((handleFileChange s selected).translations.map Translation.langCode).Nodup ∧
    ((handleTranscribe s cachedAi apiKeyEnv netResponse).1.translations.map
      Translation.langCode).Nodup ∧
    ((handleTranslate languages s netResponse).translations.map
      Translation.langCode).Nodup ∧
    ((handleGenerateVoiceover s langCode speechResponse).translations.map
      Translation.langCode).Nodup ∧
    (s.translations.any (fun t => t.langCode == s.selectedLanguage) = true →
      handleTranslate languages s netResponse = s) := by
  refine ⟨?_, ?_, ?_, ?_, ?_⟩
  · cases selected with
    | none => exact h
    | some file => simp [handleFileChange]
  · rw [handleTranscribe_translations]
    exact h
  · unfold handleTranslate
    dsimp only
    split
    · exact h
    · next hguard =>
      cases netResponse with
      | error e => exact h
      | ok translatedText =>
        dsimp only
        rw [List.map_append]
        rw [List.nodup_append]
        refine ⟨h, List.nodup_singleton _, ?_⟩
        intro x hx hxs
        simp at hxs
        subst hxs
        rw [Bool.or_eq_true, not_or] at hguard
        obtain ⟨-, hany⟩ := hguard
        rw [List.any_eq_true] at hany
        rw [List.mem_map] at hx
        obtain ⟨tr, htr, hlc⟩ := hx
        exact hany ⟨tr, htr, by simp [hlc]⟩
  · unfold handleGenerateVoiceover
    dsimp only
    split
    · exact h
    · cases speechResponse with
      | error e =>
        dsimp only
        rw [updateRow_updateRow]
        exact updateRow_nodup_langCode _ _ _ (fun t => rfl) h
      | ok b64 =>
        dsimp only
        cases hdec : decodeBase64 b64 with
        | ok pcmData =>
          dsimp only
          rw [updateRow_updateRow]
          exact updateRow_nodup_langCode _ _ _ (fun t => rfl) h
        | error msg =>
          dsimp only
          rw [updateRow_updateRow]
          exact updateRow_nodup_langCode _ _ _ (fun t => rfl) h
  · intro hany
    unfold handleTranslate
    rw [hany]
    simp

/-- Witness for C9 at a concrete state whose selected language already has a
translation. -/
theorem langCode_nodup_invariant_witness :
    ((handleFileChange demoSelectedEs (some demoFile)).translations.map
      Translation.langCode).Nodup ∧
    ((handleTranslate [] demoSelectedEs (Except.ok "T")).translations.map
      Translation.langCode).Nodup ∧
    ((handleGenerateVoiceover demoSelectedEs "es" (Except.ok "AAEC")).translations.map
      Translation.langCode).Nodup ∧
    handleTranslate [] demoSelectedEs (Except.ok "T") = demoSelectedEs :=
  ⟨(langCode_nodup_invariant [] demoSelectedEs (some demoFile) none none
      (Except.ok "T") (Except.ok "AAEC") "es" (by decide)).1,
   (langCode_nodup_invariant [] demoSelectedEs (some demoFile) none none
      (Except.ok "T") (Except.ok "AAEC") "es" (by decide)).2.2.1,
   (langCode_nodup_invariant [] demoSelectedEs (some demoFile) none none
      (Except.ok "T") (Except.ok "AAEC") "es" (by decide)).2.2.2.1,
   (langCode_nodup_invariant [] demoSelectedEs (some demoFile) none none
      (Except.ok "T") (Except.ok "AAEC") "es" (by decide)).2.2.2.2 (by decide)⟩

/-- Claim C10: choosing a new audio file discards every prior result: the
transcription becomes empty, the translations list empty, the active tab
`en`, the error cleared, the appState `initial`, and the chosen file is
stored. -/
theorem file_change_resets (s : AppModel) (file : AudioFile) :
    (handleFileChange s (some file)).originalTranscription = "" ∧
    (handleFileChange s (some file)).translations = [] ∧
    (handleFileChange s (some file)).activeTab = "en" ∧
    (handleFileChange s (some file)).error = none ∧
    (handleFileChange s (some file)).appState = AppPhase.initial ∧
    (handleFileChange s (some file)).audioFile = some file :=
  ⟨rfl, rfl, rfl, rfl, rfl, rfl⟩

end AudioStudio
